import Mathlib

set_option autoImplicit false

/-!
Verification of the go-mocket fake database driver core (`stmt.go`).

The Go code is shallowly embedded: Go strings are `List Char`, Go
`interface{}` argument values are `GoValue`, nil-able pointers are
`Option`, and the pseudo-random generator `rand.Int63()` is an oracle
parameter `rng : Int` (any value in `[0, 2^63)`).  The statement methods
`ExecContext` and `QueryContext` become pure functions that return the
driver-level result together with the post-call statement state, the
list of catalog lookups performed and the list of callback invocations,
so that "no lookup happens" and "the callback fires exactly once" are
expressible.  Go's `fmt.Sprintf` is modelled for the verb `%v`, the only
verb the substitution loop in `QueryContext` introduces; other `%`
sequences are kept literally.
-/

namespace GoMocket

/-- GoValue models a Go `interface{}` argument value as it is passed to the
driver (`driver.NamedValue.Value`). -/
inductive GoValue where
  | nil
  | int (n : Int)
  | str (s : List Char)
  | bool (b : Bool)
deriving DecidableEq, Repr

/-- Textual form of a value under Go's `%v` verb. -/
def formatValue : GoValue → List Char
  | .nil => "<nil>".toList
  | .int n => (toString n).toList
  | .str s => s
  | .bool b => (if b then "true" else "false").toList

/-- Errors the embedded code can return. `errClosed` is the package-level
`errClosed`, `errBadConn` is `driver.ErrBadConn`, `registered e` is the
error value stored on a matched response, and `unimplemented cmd` is the
`fmt.Errorf("unimplemented statement Exec command type of %q", s.command)`
error, which carries the offending command keyword. -/
inductive GoError where
  | errClosed
  | errBadConn
  | registered (msg : List Char)
  | unimplemented (command : List Char)
deriving DecidableEq, Repr

/-- Driver-level result of `ExecContext`: either a `FakeResult` value
(`NewFakeResult(id, 1)` on the INSERT branch) or a `driver.RowsAffected`
integer (the UPDATE/DELETE/MERGE branches). -/
inductive DriverResult where
  | fakeResult (lastInsertID : Int) (rowsAffected : Int)
  | driverRowsAffected (n : Int)
deriving DecidableEq, Repr

/-- Exceptions bundle of a response.  A hook field `some b` models a non-nil
Go hook function that returns `b`; `none` models a nil hook. -/
structure Exceptions where
  hookQueryBadConnection : Option Bool
  hookExecBadConnection : Option Bool
deriving DecidableEq, Repr

/-- Modelled from the spec: the registered `FakeResponse` record of the
response catalog ("Catcher"), which is not part of `src/`.  Per the spec it
carries a matcher (pattern over the SQL text, exact or substring, plus an
optional argument predicate, here equality with an expected argument list),
an ordered list of keyed records (`response`), an `err` that fails the
operation outright, a callback flag (`hasCallback`; invocations are recorded
by the execution functions), `lastInsertID`, `rowsAffected` and the
`exceptions` hook bundle. -/
structure FakeResponse where
  pattern : List Char
  strictMatch : Bool
  argsExpected : Option (List GoValue)
  response : List (List (List Char × GoValue))
  err : Option (List Char)
  hasCallback : Bool
  lastInsertID : Int
  rowsAffected : Int
  exceptions : Option Exceptions
deriving DecidableEq, Repr

/-- Guard `fResp.Exceptions != nil && fResp.Exceptions.HookExecBadConnection != nil && fResp.Exceptions.HookExecBadConnection()`. -/
def hookExecFires (r : FakeResponse) : Bool :=
  match r.exceptions with
  | none => false
  | some ex =>
    match ex.hookExecBadConnection with
    | none => false
    | some b => b

/-- Guard `fResp.Exceptions != nil && fResp.Exceptions.HookQueryBadConnection != nil && fResp.Exceptions.HookQueryBadConnection()`. -/
def hookQueryFires (r : FakeResponse) : Bool :=
  match r.exceptions with
  | none => false
  | some ex =>
    match ex.hookQueryBadConnection with
    | none => false
    | some b => b

/-- Whether the second list starts with the first. -/
def listBeg : List Char → List Char → Bool
  | [], _ => true
  | _ :: _, [] => false
  | a :: as, b :: bs => a = b && listBeg as bs

/-- Whether `pat` occurs as a contiguous substring of `q` (Go
`strings.Contains`); the empty pattern matches everything. -/
def hasSub (pat : List Char) : List Char → Bool
  | [] => listBeg pat []
  | c :: qs => listBeg pat (c :: qs) || hasSub pat qs

/-- Modelled from the spec: whether a registered expectation accepts the
(already argument-substituted) SQL text and the bound argument list.  The
text matcher is exact or substring per the registered policy, and an
expectation with an argument predicate that fails is non-matching even if
the text matches. -/
def responseMatches (r : FakeResponse) (q : List Char) (args : List GoValue) : Bool :=
  (if r.strictMatch then q == r.pattern else hasSub r.pattern q)
    && (match r.argsExpected with
        | none => true
        | some expected => expected == args)

/-- Modelled from the spec: the designated default/empty response returned
when no expectation matches — zero-valued in every field. -/
def emptyResponse : FakeResponse :=
  { pattern := [], strictMatch := false, argsExpected := none, response := [],
    err := none, hasCallback := false, lastInsertID := 0, rowsAffected := 0,
    exceptions := none }

/-- Modelled from the spec: `Catcher.FindResponse(sqlText, args)`, which is
not part of `src/`.  The first-registered matching expectation wins; if no
expectation matches, the designated default/empty response is returned
rather than an error. -/
def FindResponse (catalog : List FakeResponse) (q : List Char) (args : List GoValue) : FakeResponse :=
  match catalog with
  | [] => emptyResponse
  | r :: rest => if responseMatches r q args then r else FindResponse rest q args

/-- Bool form of "no registered expectation matches this text and args". -/
def noMatch (catalog : List FakeResponse) (q : List Char) (args : List GoValue) : Bool :=
  catalog.all (fun r => !(responseMatches r q args))

/-- FakeConn, as used by `stmt.go`: a nil-able `db` and the
current-transaction reference `currTx`. -/
structure FakeConn where
  db : Option Unit
  currTx : Option Unit
deriving DecidableEq, Repr

/-- FakeStmt of `stmt.go`.  The `next` chain is represented externally as a
list (see `closeChain`); the remaining fields are embedded directly. -/
structure FakeStmt where
  connection : Option FakeConn
  q : List Char
  command : List Char
  closed : Bool
  colName : List (List Char)
  placeholders : Int
deriving DecidableEq, Repr

/-- RowsCursor as built at the end of `QueryContext`: `rows` is the
`resultRows` slice of row-sets, each row a list of column values. -/
structure RowsCursor where
  posRow : Int
  rows : List (List (List GoValue))
  cols : List (List Char)
  colType : List (List (List Char))
  errPos : Int
  closed : Bool
deriving DecidableEq, Repr

/-- Outcome of one `ExecContext` call: the returned value, the statement
state after the call, the `FindResponse` lookups performed and the callback
invocations (each with the SQL text and arguments passed). -/
structure ExecOutcome where
  result : Except GoError DriverResult
  stmt : FakeStmt
  lookups : List (List Char × List GoValue)
  callbackCalls : List (List Char × List GoValue)

/-- Outcome of one `QueryContext` call, analogous to `ExecOutcome`. -/
structure QueryOutcome where
  result : Except GoError RowsCursor
  stmt : FakeStmt
  lookups : List (List Char × List GoValue)
  callbackCalls : List (List Char × List GoValue)

/-- Go `strings.Replace(s, string(t), r, 1)` for a one-character pattern:
replace the first occurrence of `t` in `s` by `r`. -/
def replaceFirst (s : List Char) (t : Char) (r : List Char) : List Char :=
  match s with
  | [] => []
  | c :: rest => if c = t then r ++ rest else c :: replaceFirst rest t r

/-- Go `fmt.Sprintf` restricted to the verb `%v` (the only verb the
substitution loop introduces): each `%v` consumes the next argument; a `%v`
with no argument left prints Go's missing-argument marker; leftover
arguments are appended as Go's EXTRA marker; any other character, a `%` not
followed by `v` included, is kept literally. -/
def sprintfGo : List Char → List (List Char) → List Char
  | [], [] => []
  | [], v :: vs => "%!(EXTRA ".toList ++ (v :: vs).foldl (· ++ ·) [] ++ ")".toList
  | '%' :: 'v' :: rest, v :: vs => v ++ sprintfGo rest vs
  | '%' :: 'v' :: rest, [] => "%!v(MISSING)".toList ++ sprintfGo rest []
  | c :: rest, vs => c :: sprintfGo rest vs

/-- One iteration of the substitution loop of `QueryContext`:
`s.q = strings.Replace(s.q, "?", "%v", 1); s.q = fmt.Sprintf(s.q, args[i].Value)`. -/
def substStep (q : List Char) (v : GoValue) : List Char :=
  sprintfGo (replaceFirst q '?' ('%' :: 'v' :: [])) [formatValue v]

/-- The whole substitution loop of `QueryContext`, over all arguments in
order. -/
def substArgs (q : List Char) (args : List GoValue) : List Char :=
  args.foldl substStep q

/-- SQL text used for matching on the query path: substituted only when the
argument list is non-empty (`if len(args) > 0`). -/
def effectiveQuery (s : FakeStmt) (args : List GoValue) : List Char :=
  if args.length > 0 then substArgs s.q args else s.q

/-- Direct in-order placeholder replacement, following the spec's words:
each `?` of the text is replaced, left to right, by the next value; the
inserted values are not rescanned. Used to compare the code's progressive
rewrite against the claimed behaviour. -/
def replaceQMarks : List Char → List (List Char) → List Char
  | q, [] => q
  | [], _ :: _ => []
  | c :: rest, v :: vs =>
    if c = '?' then v ++ replaceQMarks rest vs else c :: replaceQMarks rest (v :: vs)

/-- Column collection loop of `QueryContext`: iterate the first record's
entries, assigning each column name the next index
(`colIndexes[colName] = len(columnNames); columnNames = append(columnNames, colName)`).
Go map iteration is modelled as the record's key insertion order. -/
def collectColumns (r0 : List (List Char × GoValue)) :
    List (List Char × Nat) × List (List Char) :=
  r0.foldl (fun acc kv => (acc.1 ++ [(kv.1, acc.2.length)], acc.2 ++ [kv.1])) ([], [])

/-- Go map read `colIndexes[col]`: the stored index, 0 (the zero value) when
absent. -/
def lookupIdx (colIndexes : List (List Char × Nat)) (c : List Char) : Nat :=
  ((colIndexes.find? (fun p => p.1 == c)).map Prod.snd).getD 0

/-- Go map read `record[col]` distinguishing presence: `some v` when the key
is present with value `v`, `none` when absent (Go then yields nil). -/
def lookupRecord (rec : List (List Char × GoValue)) (c : List Char) : Option GoValue :=
  (rec.find? (fun p => p.1 == c)).map Prod.snd

/-- Row construction loop of `QueryContext`: allocate
`make([]interface{}, len(columnNames))` (all nil) and write
`oneRow.cols[colIndexes[col]] = record[col]` for each column name. -/
def buildRow (colIndexes : List (List Char × Nat)) (columnNames : List (List Char))
    (rec : List (List Char × GoValue)) : List GoValue :=
  columnNames.foldl
    (fun cols col => cols.set (lookupIdx colIndexes col) ((lookupRecord rec col).getD GoValue.nil))
    (List.replicate columnNames.length GoValue.nil)

/-- FakeStmt.ExecContext of `stmt.go`.  `rng` is the value `rand.Int63()`
would produce if drawn on this call.  The INSERT branch builds
`NewFakeResult(id, 1)`; modelled from the spec, `NewFakeResult` (not in
`src/`) wraps the pair (last-insert-id, rows-affected). -/
def execContext (catalog : List FakeResponse) (rng : Int) (s : FakeStmt)
    (args : List GoValue) : ExecOutcome :=
  if s.closed then
    { result := .error .errClosed, stmt := s, lookups := [], callbackCalls := [] }
  else
    let fResp := FindResponse catalog s.q args
    let lks := [(s.q, args)]
    if hookExecFires fResp then
      { result := .error .errBadConn, stmt := s, lookups := lks, callbackCalls := [] }
    else
      match fResp.err with
      | some e =>
        { result := .error (.registered e), stmt := s, lookups := lks, callbackCalls := [] }
      | none =>
        let cbs := if fResp.hasCallback then [(s.q, args)] else []
        if s.command = "INSERT".toList then
          let id := if fResp.lastInsertID = 0 then rng else fResp.lastInsertID
          { result := .ok (.fakeResult id 1), stmt := s, lookups := lks, callbackCalls := cbs }
        else if s.command = "UPDATE".toList then
          { result := .ok (.driverRowsAffected fResp.rowsAffected), stmt := s,
            lookups := lks, callbackCalls := cbs }
        else if s.command = "DELETE".toList then
          { result := .ok (.driverRowsAffected fResp.rowsAffected), stmt := s,
            lookups := lks, callbackCalls := cbs }
        else if s.command = "MERGE".toList then
          { result := .ok (.driverRowsAffected fResp.rowsAffected), stmt := s,
            lookups := lks, callbackCalls := cbs }
        else
          { result := .error (.unimplemented s.command), stmt := s,
            lookups := lks, callbackCalls := cbs }

/-- FakeStmt.QueryContext of `stmt.go`: closed check, in-place argument
substitution when arguments are present, catalog lookup on the rewritten
text, hook and error checks, then materialization of the cursor and the
callback invocation. -/
def queryContext (catalog : List FakeResponse) (s : FakeStmt)
    (args : List GoValue) : QueryOutcome :=
  if s.closed then
    { result := .error .errClosed, stmt := s, lookups := [], callbackCalls := [] }
  else
    let q1 := effectiveQuery s args
    let s1 := { s with q := q1 }
    let fResp := FindResponse catalog q1 args
    let lks := [(q1, args)]
    if hookQueryFires fResp then
      { result := .error .errBadConn, stmt := s1, lookups := lks, callbackCalls := [] }
    else
      match fResp.err with
      | some e =>
        { result := .error (.registered e), stmt := s1, lookups := lks, callbackCalls := [] }
      | none =>
        let cip :=
          match fResp.response with
          | [] => (([] : List (List Char × Nat)), ([] : List (List Char)))
          | r0 :: _ => collectColumns r0
        let rows := fResp.response.map (fun rec => buildRow cip.1 cip.2 rec)
        let cursor : RowsCursor :=
          { posRow := -1, rows := [rows], cols := cip.2, colType := [],
            errPos := -1, closed := false }
        let cbs := if fResp.hasCallback then [(q1, args)] else []
        { result := .ok cursor, stmt := s1, lookups := lks, callbackCalls := cbs }

/-- FakeStmt.Close of `stmt.go`, over the statement followed by its
transitive `next` chain.  Each node panics (`none`) on a nil connection or
a connection with nil db, otherwise sets its closed flag, recurses into the
chain and returns a nil error (`some` of the updated chain).  Partial flag
mutations preceding a panic are not tracked. -/
def closeChain : List FakeStmt → Option (List FakeStmt)
  | [] => some []
  | s :: rest =>
    match s.connection with
    | none => none
    | some c =>
      if c.db = none then none
      else
        match closeChain rest with
        | none => none
        | some rest2 => some ({ s with closed := true } :: rest2)

/-- Guard `Hook != nil && Hook()` for the transaction hooks. -/
def hookFires : Option Bool → Bool
  | none => false
  | some b => b

/-- FakeTx.Commit of `stmt.go`: clear `tx.c.currTx`, then fail with the
bad-connection error when `HookBadCommit` is set and returns true. -/
def commitTx (hookBadCommit : Option Bool) (c : FakeConn) : FakeConn × Option GoError :=
  let c2 := { c with currTx := none }
  if hookFires hookBadCommit then (c2, some .errBadConn) else (c2, none)

/-- FakeTx.Rollback of `stmt.go`: clear `tx.c.currTx`, then fail with the
bad-connection error when `HookBadRollback` is set and returns true. -/
def rollbackTx (hookBadRollback : Option Bool) (c : FakeConn) : FakeConn × Option GoError :=
  let c2 := { c with currTx := none }
  if hookFires hookBadRollback then (c2, some .errBadConn) else (c2, none)

/-! Concrete fixtures used by witnesses and counterexamples. -/

/-- Fixture: an open (or closed) statement with the given command keyword
and SQL text, connected to nothing. -/
def mkStmt (cmd q : String) (closed : Bool) : FakeStmt :=
  { connection := none, q := q.toList, command := cmd.toList, closed := closed,
    colName := [], placeholders := 0 }

/-- Fixture: a catch-all registered response (empty substring pattern, no
argument predicate) with the given fields. -/
def mkResp (response : List (List (List Char × GoValue))) (err : Option (List Char))
    (hasCallback : Bool) (lastInsertID rowsAffected : Int)
    (exceptions : Option Exceptions) : FakeResponse :=
  { pattern := [], strictMatch := false, argsExpected := none, response := response,
    err := err, hasCallback := hasCallback, lastInsertID := lastInsertID,
    rowsAffected := rowsAffected, exceptions := exceptions }

/-- Fixture: a catch-all response with both bad-connection hooks returning
true and a registered error. -/
def respHookAndError : FakeResponse :=
  mkResp [] (some "boom".toList) false 0 0
    (some { hookQueryBadConnection := some true, hookExecBadConnection := some true })

/-- Cursor that `QueryContext` builds for the empty response: one
result-set with zero rows and no columns. -/
def emptyCursor : RowsCursor :=
  { posRow := -1, rows := [[]], cols := [], colType := [], errPos := -1,
    closed := false }

/-- Fixture: an open statement that does have a connection with a live db. -/
def connectedStmt : FakeStmt :=
  { connection := some { db := some (), currTx := none }, q := "SELECT 1".toList,
    command := "SELECT".toList, closed := false, colName := [], placeholders := 0 }

/-- Whether a statement passes both panic guards of `Close`: a non-nil
connection whose db is non-nil. -/
def goodConn (t : FakeStmt) : Bool :=
  match t.connection with
  | none => false
  | some c => c.db.isSome

/-- Fixture: a keyed record with columns id and name. -/
def usersRecord1 : List (List Char × GoValue) :=
  [("id".toList, GoValue.int 1), ("name".toList, GoValue.str "a".toList)]

/-- Fixture: a keyed record carrying only the name column. -/
def usersRecord2 : List (List Char × GoValue) :=
  [("name".toList, GoValue.str "b".toList)]

/-- Fixture: a catch-all response with two keyed records of differing key
sets. -/
def usersResp : FakeResponse :=
  mkResp [usersRecord1, usersRecord2] none false 0 0 none

/-! Helper lemmas. -/

/-- When no registered expectation matches, `FindResponse` returns the
designated default/empty response. -/
theorem findResponse_of_noMatch {catalog : List FakeResponse} {q : List Char}
    {args : List GoValue} (h : noMatch catalog q args = true) :
    FindResponse catalog q args = emptyResponse := by
  induction catalog with
  | nil => rfl
  | cons r rest ih =>
    simp only [noMatch, List.all_cons, Bool.and_eq_true, Bool.not_eq_true'] at h
    simpa [FindResponse, h.1] using ih h.2

/-! Claim theorems. -/

/-- C1, counterexample: the claim says that for unmatched SQL text
`ExecContext` succeeds with a zero-rows-affected result and never returns
an error; but with an empty catalog (so nothing matches) an exec whose
command keyword is SELECT returns the unimplemented-command error. -/
theorem c1_counterexample :
    (execContext [] 0 (mkStmt "SELECT" "SELECT 1" false) []).result
      = Except.error (GoError.unimplemented ("SELECT".toList)) := by rfl

/-- C1 (amended): for every SQL text that matches no registered
expectation, QueryContext succeeds with a zero-row cursor; ExecContext
succeeds with zero rows affected when the command is UPDATE, DELETE or
MERGE, succeeds with one row affected (and the freshly drawn pseudo-random
id) when the command is INSERT, and returns the unimplemented-command
error for any other command keyword. -/
theorem c1_unmatched_defaults (catalog : List FakeResponse) (rng : Int)
    (s : FakeStmt) (args : List GoValue)
    (hopen : s.closed = false)
    (hexecNo : noMatch catalog s.q args = true)
    (hqueryNo : noMatch catalog (effectiveQuery s args) args = true) :
    (∃ cur, (queryContext catalog s args).result = Except.ok cur ∧
        cur.rows = [[]] ∧ cur.cols = []) ∧
    ((s.command = "UPDATE".toList ∨ s.command = "DELETE".toList ∨
        s.command = "MERGE".toList) →
      (execContext catalog rng s args).result =
        Except.ok (DriverResult.driverRowsAffected 0)) ∧
    (s.command = "INSERT".toList →
      (execContext catalog rng s args).result =
        Except.ok (DriverResult.fakeResult rng 1)) ∧
    (s.command ≠ "INSERT".toList → s.command ≠ "UPDATE".toList →
        s.command ≠ "DELETE".toList → s.command ≠ "MERGE".toList →
      (execContext catalog rng s args).result =
        Except.error (GoError.unimplemented s.command)) := by
  have hE := findResponse_of_noMatch hexecNo
  have hQ := findResponse_of_noMatch hqueryNo
  refine ⟨?_, ?_, ?_, ?_⟩
  · refine ⟨emptyCursor, ?_, rfl, rfl⟩
    simp [queryContext, hopen, hQ, emptyResponse, hookQueryFires, emptyCursor]
  · rintro (hc | hc | hc) <;>
      simp [execContext, hopen, hE, emptyResponse, hookExecFires, hc]
  · intro hc
    simp [execContext, hopen, hE, emptyResponse, hookExecFires, hc]
  · intro h1 h2 h3 h4
    simp [execContext, hopen, hE, emptyResponse, hookExecFires]
    split_ifs with hI hU hD hM
    · exact absurd hI h1
    · exact absurd hU h2
    · exact absurd hD h3
    · exact absurd hM h4
    · rfl

/-- C1 witness: with an empty catalog, a DELETE exec succeeds with zero
rows affected and a SELECT query yields the zero-row cursor. -/
theorem c1_unmatched_defaults_witness :
    (execContext [] 0 (mkStmt "DELETE" "DELETE FROM t" false) []).result =
      Except.ok (DriverResult.driverRowsAffected 0) :=
  (c1_unmatched_defaults [] 0 (mkStmt "DELETE" "DELETE FROM t" false) []
      rfl rfl rfl).2.1 (Or.inr (Or.inl rfl))

/-- C3: on a matched response configured with both a firing
direction-appropriate bad-connection hook and a non-nil Error, ExecContext
and QueryContext return the bad-connection signal, not the registered
error, and build no result. -/
theorem c3_hook_beats_error (catalog : List FakeResponse) (rng : Int)
    (s : FakeStmt) (args : List GoValue) (respE respQ : FakeResponse)
    (eE eQ : List Char)
    (hopen : s.closed = false)
    (hfe : FindResponse catalog s.q args = respE)
    (hfq : FindResponse catalog (effectiveQuery s args) args = respQ)
    (hHE : hookExecFires respE = true)
    (_hEE : respE.err = some eE)
    (hHQ : hookQueryFires respQ = true)
    (_hEQ : respQ.err = some eQ) :
    (execContext catalog rng s args).result = Except.error GoError.errBadConn ∧
    (execContext catalog rng s args).result ≠ Except.error (GoError.registered eE) ∧
    (∀ r : DriverResult, (execContext catalog rng s args).result ≠ Except.ok r) ∧
    (queryContext catalog s args).result = Except.error GoError.errBadConn ∧
    (queryContext catalog s args).result ≠ Except.error (GoError.registered eQ) ∧
    (∀ cur : RowsCursor, (queryContext catalog s args).result ≠ Except.ok cur) := by
  have he : (execContext catalog rng s args).result = Except.error GoError.errBadConn := by
    simp [execContext, hopen, hfe, hHE]
  have hq : (queryContext catalog s args).result = Except.error GoError.errBadConn := by
    simp [queryContext, hopen, hfq, hHQ]
  refine ⟨he, ?_, ?_, hq, ?_, ?_⟩
  · rw [he]; intro h; exact GoError.noConfusion (Except.error.inj h)
  · intro r h; rw [he] at h; exact Except.noConfusion h
  · rw [hq]; intro h; exact GoError.noConfusion (Except.error.inj h)
  · intro cur h; rw [hq] at h; exact Except.noConfusion h

/-- C3 witness: a concrete catch-all response with both hooks returning
true and a registered error, checked on an exec call. -/
theorem c3_hook_beats_error_witness :
    (execContext [respHookAndError] 0 (mkStmt "UPDATE" "UPDATE t SET x=1" false) []).result
      = Except.error GoError.errBadConn :=
  (c3_hook_beats_error [respHookAndError] 0 (mkStmt "UPDATE" "UPDATE t SET x=1" false) []
      respHookAndError respHookAndError "boom".toList "boom".toList
      rfl rfl rfl rfl rfl rfl rfl).1

/-- C5: every call on a closed statement returns the closed-statement error
immediately, performs no catalog lookup, invokes no callback, leaves the
statement unchanged, and this holds however many times the call is
repeated. -/
theorem c5_closed_statement (catalog : List FakeResponse) (rng : Int)
    (s : FakeStmt) (args : List GoValue) (hclosed : s.closed = true) :
    execContext catalog rng s args =
      { result := .error .errClosed, stmt := s, lookups := [], callbackCalls := [] } ∧
    queryContext catalog s args =
      { result := .error .errClosed, stmt := s, lookups := [], callbackCalls := [] } ∧
    (∀ n : Nat, (fun t => (execContext catalog rng t args).stmt)^[n] s = s) ∧
    (∀ n : Nat, (fun t => (queryContext catalog t args).stmt)^[n] s = s) := by
  have he : execContext catalog rng s args =
      { result := .error .errClosed, stmt := s, lookups := [], callbackCalls := [] } := by
    simp [execContext, hclosed]
  have hq : queryContext catalog s args =
      { result := .error .errClosed, stmt := s, lookups := [], callbackCalls := [] } := by
    simp [queryContext, hclosed]
  refine ⟨he, hq, fun n => ?_, fun n => ?_⟩
  · exact Function.iterate_fixed (by rw [he]) n
  · exact Function.iterate_fixed (by rw [hq]) n

/-- C5 witness: a concrete closed statement, with a callback-carrying
catch-all response registered, still yields the closed error with no
lookup and no callback. -/
theorem c5_closed_statement_witness :
    execContext [mkResp [] none true 0 0 none] 0 (mkStmt "SELECT" "SELECT 1" true) [] =
      { result := .error .errClosed, stmt := mkStmt "SELECT" "SELECT 1" true,
        lookups := [], callbackCalls := [] } :=
  (c5_closed_statement [mkResp [] none true 0 0 none] 0
      (mkStmt "SELECT" "SELECT 1" true) [] rfl).1

/-- C4, counterexample: the claim says no call that returns an error
invokes the callback; but an exec whose command keyword is outside
INSERT/UPDATE/DELETE/MERGE invokes the matched response's callback once
and then returns the unimplemented-command error. -/
theorem c4_counterexample :
    (execContext [mkResp [] none true 0 0 none] 0
        (mkStmt "TRUNCATE" "TRUNCATE t" false) []).result
      = Except.error (GoError.unimplemented ("TRUNCATE".toList)) ∧
    (execContext [mkResp [] none true 0 0 none] 0
        (mkStmt "TRUNCATE" "TRUNCATE t" false) []).callbackCalls
      = [("TRUNCATE t".toList, [])] :=
  ⟨rfl, rfl⟩

/-- C4 (amended): the registered callback fires exactly once per call with
the final SQL text and arguments whenever the matched response carries no
firing exception hook and no Error — on the exec path even when the call
then fails with the unimplemented-command error; a firing hook or a
registered Error returns that failure verbatim with no callback
invocation, and on the query path no call that returns an error invokes
the callback. -/
theorem c4_callback_policy (catalog : List FakeResponse) (rng : Int)
    (s : FakeStmt) (args : List GoValue) (respE respQ : FakeResponse)
    (hopen : s.closed = false)
    (hfe : FindResponse catalog s.q args = respE)
    (hfq : FindResponse catalog (effectiveQuery s args) args = respQ) :
    (hookExecFires respE = true →
      (execContext catalog rng s args).callbackCalls = []) ∧
    (hookExecFires respE = false → ∀ e, respE.err = some e →
      (execContext catalog rng s args).result = Except.error (GoError.registered e) ∧
      (execContext catalog rng s args).callbackCalls = []) ∧
    (hookExecFires respE = false → respE.err = none →
      (execContext catalog rng s args).callbackCalls =
        (if respE.hasCallback then [(s.q, args)] else [])) ∧
    (∀ e, (queryContext catalog s args).result = Except.error e →
      (queryContext catalog s args).callbackCalls = []) ∧
    (hookQueryFires respQ = false → respQ.err = none →
      (queryContext catalog s args).callbackCalls =
        (if respQ.hasCallback then [(effectiveQuery s args, args)] else []) ∧
      (queryContext catalog s args).result.isOk = true) := by
  refine ⟨?_, ?_, ?_, ?_, ?_⟩
  · intro hh
    simp [execContext, hopen, hfe, hh]
  · intro hh e he
    constructor <;> simp [execContext, hopen, hfe, hh, he]
  · intro hh he
    simp only [execContext, hopen, hfe, hh, he, Bool.false_eq_true, if_false]
    split_ifs <;> rfl
  · intro e he
    by_cases hh : hookQueryFires respQ = true
    · simp [queryContext, hopen, hfq, hh]
    · simp only [Bool.not_eq_true] at hh
      cases herr : respQ.err with
      | some e2 => simp [queryContext, hopen, hfq, hh, herr]
      | none => simp [queryContext, hopen, hfq, hh, herr] at he
  · intro hh he
    refine ⟨by simp [queryContext, hopen, hfq, hh, he], ?_⟩
    simp only [queryContext, hopen, hfq, hh, he, Bool.false_eq_true, if_false]
    rfl

/-- C4 witness: a matched catch-all response with a callback on a DELETE
exec fires the callback once with the SQL text and arguments. -/
theorem c4_callback_policy_witness :
    (execContext [mkResp [] none true 0 5 none] 0
        (mkStmt "DELETE" "DELETE FROM t" false) []).callbackCalls
      = [("DELETE FROM t".toList, [])] :=
  (c4_callback_policy [mkResp [] none true 0 5 none] 0
      (mkStmt "DELETE" "DELETE FROM t" false) []
      (mkResp [] none true 0 5 none) (mkResp [] none true 0 5 none)
      rfl rfl rfl).2.2.1 rfl rfl

/-- C6, counterexample: the claim says that with a zero registered
LastInsertID the returned id is a pseudo-random non-zero value; but
`rand.Int63()` ranges over `[0, 2^63)` and may draw 0, in which case the
returned id is 0. -/
theorem c6_counterexample :
    (execContext [mkResp [] none false 0 0 none] 0
        (mkStmt "INSERT" "INSERT INTO t" false) []).result
      = Except.ok (DriverResult.fakeResult 0 1) := by rfl

/-- C6 (amended): on a matched, non-error response, an INSERT exec returns
one row affected and the registered LastInsertID when that value is
non-zero; when it is zero, the returned id is the freshly drawn value of
`rand.Int63()` — a pseudo-random non-negative 63-bit integer, not
guaranteed non-zero. -/
theorem c6_insert_result (catalog : List FakeResponse) (rng : Int)
    (s : FakeStmt) (args : List GoValue) (resp : FakeResponse)
    (hopen : s.closed = false)
    (hcmd : s.command = "INSERT".toList)
    (hfe : FindResponse catalog s.q args = resp)
    (hhook : hookExecFires resp = false)
    (herr : resp.err = none)
    (_hrng : 0 ≤ rng ∧ rng < 2 ^ 63) :
    (execContext catalog rng s args).result =
      Except.ok (DriverResult.fakeResult
        (if resp.lastInsertID = 0 then rng else resp.lastInsertID) 1) ∧
    (resp.lastInsertID ≠ 0 →
      (execContext catalog rng s args).result =
        Except.ok (DriverResult.fakeResult resp.lastInsertID 1)) := by
  constructor
  · simp [execContext, hopen, hfe, hhook, herr, hcmd]
  · intro hid
    simp [execContext, hopen, hfe, hhook, herr, hcmd, hid]

/-- C6 witness: a registered LastInsertID of 7 is returned verbatim with
one row affected. -/
theorem c6_insert_result_witness :
    (execContext [mkResp [] none false 7 0 none] 3
        (mkStmt "INSERT" "INSERT INTO t" false) []).result
      = Except.ok (DriverResult.fakeResult 7 1) :=
  (c6_insert_result [mkResp [] none false 7 0 none] 3
      (mkStmt "INSERT" "INSERT INTO t" false) [] (mkResp [] none false 7 0 none)
      rfl rfl rfl rfl rfl ⟨by norm_num, by norm_num⟩).2 (by decide)

/-- C7: on a matched, non-error response, an exec whose command is UPDATE,
DELETE or MERGE returns a result exposing exactly the registered
RowsAffected value, and an exec with any other non-INSERT command keyword
returns the unimplemented-command error carrying that keyword. -/
theorem c7_exec_dispatch (catalog : List FakeResponse) (rng : Int)
    (s : FakeStmt) (args : List GoValue) (resp : FakeResponse)
    (hopen : s.closed = false)
    (hfe : FindResponse catalog s.q args = resp)
    (hhook : hookExecFires resp = false)
    (herr : resp.err = none) :
    ((s.command = "UPDATE".toList ∨ s.command = "DELETE".toList ∨
        s.command = "MERGE".toList) →
      (execContext catalog rng s args).result =
        Except.ok (DriverResult.driverRowsAffected resp.rowsAffected)) ∧
    (s.command ≠ "INSERT".toList → s.command ≠ "UPDATE".toList →
        s.command ≠ "DELETE".toList → s.command ≠ "MERGE".toList →
      (execContext catalog rng s args).result =
        Except.error (GoError.unimplemented s.command)) := by
  constructor
  · rintro (hc | hc | hc) <;> simp [execContext, hopen, hfe, hhook, herr, hc]
  · intro h1 h2 h3 h4
    cases hcb : resp.hasCallback <;>
    · simp [execContext, hopen, hfe, hhook, herr, hcb]
      split_ifs with hI hU hD hM
      · exact absurd hI h1
      · exact absurd hU h2
      · exact absurd hD h3
      · exact absurd hM h4
      · rfl

/-- C7 witness: a registered RowsAffected of 3 is exposed on an UPDATE
exec with one bound argument. -/
theorem c7_exec_dispatch_witness :
    (execContext [mkResp [] none false 0 3 none] 0
        (mkStmt "UPDATE" "UPDATE t SET x=?" false) [GoValue.int 5]).result
      = Except.ok (DriverResult.driverRowsAffected 3) :=
  (c7_exec_dispatch [mkResp [] none false 0 3 none] 0
      (mkStmt "UPDATE" "UPDATE t SET x=?" false) [GoValue.int 5]
      (mkResp [] none false 0 3 none) rfl rfl rfl rfl).1 (Or.inl rfl)

/-- C9: Commit and Rollback each clear the owning connection's
current-transaction reference (even when the hook then fails the
operation), leave the rest of the connection untouched, and return the
bad-connection failure exactly when the corresponding global hook exists
and returns true, success otherwise. -/
theorem c9_tx_terminal (hookC hookR : Option Bool) (c : FakeConn) :
    (commitTx hookC c).1.currTx = none ∧ (commitTx hookC c).1.db = c.db ∧
    ((commitTx hookC c).2 = some GoError.errBadConn ↔ hookC = some true) ∧
    ((commitTx hookC c).2 = none ↔ hookC ≠ some true) ∧
    (rollbackTx hookR c).1.currTx = none ∧ (rollbackTx hookR c).1.db = c.db ∧
    ((rollbackTx hookR c).2 = some GoError.errBadConn ↔ hookR = some true) ∧
    ((rollbackTx hookR c).2 = none ↔ hookR ≠ some true) := by
  rcases hookC with _ | bc <;> rcases hookR with _ | br
  · simp [commitTx, rollbackTx, hookFires]
  · cases br <;> simp [commitTx, rollbackTx, hookFires]
  · cases bc <;> simp [commitTx, rollbackTx, hookFires]
  · cases bc <;> cases br <;> simp [commitTx, rollbackTx, hookFires]

/-- Close on a statement chain succeeds (returning the chain with every
closed flag set) exactly when every node passes the panic guards, and
panics otherwise. -/
theorem closeChain_spec (chain : List FakeStmt) :
    closeChain chain =
      if chain.all goodConn then some (chain.map fun t => { t with closed := true })
      else none := by
  induction chain with
  | nil => rfl
  | cons s rest ih =>
    cases hc : s.connection with
    | none => simp [closeChain, hc, List.all_cons, goodConn]
    | some c =>
      cases hdb : c.db with
      | none => simp [closeChain, hc, hdb, List.all_cons, goodConn]
      | some u =>
        simp only [closeChain, hc, hdb, ih, List.all_cons, goodConn, List.map_cons]
        by_cases hall : rest.all goodConn = true <;>
          simp [hall, hdb]

/-- A statement passes the panic guards iff its connection is non-nil with
a non-nil db. -/
theorem goodConn_iff (t : FakeStmt) :
    goodConn t = true ↔ ∃ c, t.connection = some c ∧ c.db ≠ none := by
  cases h : t.connection with
  | none => simp [goodConn, h]
  | some c => simp [goodConn, h, Option.isSome_iff_ne_none]

/-- C10, counterexample: the claim says a statement with a non-nil
connection and non-nil db always closes with a nil error; but when its
chained next statement has a nil connection, Close panics through the
recursive call. -/
theorem c10_counterexample :
    connectedStmt.connection = some { db := some (), currTx := none } ∧
    closeChain [connectedStmt, mkStmt "SELECT" "SELECT 1" false] = none :=
  ⟨rfl, rfl⟩

/-- C10 (amended): Close returns nil and sets every closed flag (even on
already-closed statements) exactly when every statement of the chain —
the statement itself and its transitive next chain — has a non-nil
connection whose db is non-nil; if any statement of the chain fails those
guards, Close panics rather than returning an error. -/
theorem c10_close_chain (chain : List FakeStmt) :
    (closeChain chain = some (chain.map fun t => { t with closed := true })
        ↔ ∀ t ∈ chain, ∃ c, t.connection = some c ∧ c.db ≠ none) ∧
    (closeChain chain = none
        ↔ ¬ ∀ t ∈ chain, ∃ c, t.connection = some c ∧ c.db ≠ none) := by
  have hiff : chain.all goodConn = true ↔
      ∀ t ∈ chain, ∃ c, t.connection = some c ∧ c.db ≠ none := by
    rw [List.all_eq_true]
    exact forall_congr' fun t => forall_congr' fun _ => goodConn_iff t
  constructor
  · rw [closeChain_spec]
    split_ifs with hall
    · exact ⟨fun _ => hiff.mp hall, fun _ => rfl⟩
    · exact ⟨fun h => absurd h (by simp), fun h2 => absurd (hiff.mpr h2) hall⟩
  · rw [closeChain_spec]
    split_ifs with hall
    · exact ⟨fun h => absurd h (by simp), fun h2 => absurd (hiff.mp hall) h2⟩
    · exact ⟨fun _ h2 => hall (hiff.mpr h2), fun _ => rfl⟩

/-- Unfolding of the column-collection fold for an arbitrary accumulator. -/
theorem collectColumns_go (r : List (List Char × GoValue))
    (ci : List (List Char × Nat)) (ns : List (List Char)) :
    r.foldl (fun acc kv => (acc.1 ++ [(kv.1, acc.2.length)], acc.2 ++ [kv.1])) (ci, ns) =
      (ci ++ (r.map Prod.fst).zip (List.range' ns.length r.length),
        ns ++ r.map Prod.fst) := by
  induction r generalizing ci ns with
  | nil => simp
  | cons kv rest ih =>
    simp only [List.foldl_cons, List.map_cons, List.length_cons]
    rw [ih, List.range'_succ, List.zip_cons_cons]
    simp [List.append_assoc]

/-- The column-collection loop yields the first record's keys in insertion
order, indexed consecutively from 0. -/
theorem collectColumns_eq (r0 : List (List Char × GoValue)) :
    collectColumns r0 =
      ((r0.map Prod.fst).zip (List.range' 0 (r0.map Prod.fst).length),
        r0.map Prod.fst) := by
  simpa [collectColumns] using collectColumns_go r0 [] []

/-- On a duplicate-free name list zipped with consecutive indices, the
index map sends the j-th name to `start + j`. -/
theorem lookupIdx_zip (names : List (List Char)) (hnd : names.Nodup) :
    ∀ (start j : Nat) (hj : j < names.length),
      lookupIdx (names.zip (List.range' start names.length)) (names.get ⟨j, hj⟩) =
        start + j := by
  induction names with
  | nil => intro start j hj; exact absurd hj (by simp)
  | cons a rest ih =>
    intro start j hj
    cases j with
    | zero =>
      show lookupIdx ((a :: rest).zip (List.range' start (rest.length + 1))) a
          = start + 0
      rw [List.range'_succ, List.zip_cons_cons]
      have h1 : List.find? (fun p : List Char × Nat => p.1 == a)
          ((a, start) :: rest.zip (List.range' (start + 1) rest.length))
            = some (a, start) :=
        List.find?_cons_of_pos _ (by simp)
      simp [lookupIdx, h1]
    | succ j2 =>
      have hj2 : j2 < rest.length := by
        simpa [Nat.succ_lt_succ_iff] using hj
      show lookupIdx ((a :: rest).zip (List.range' start (rest.length + 1)))
          (rest.get ⟨j2, hj2⟩) = start + (j2 + 1)
      rw [List.range'_succ, List.zip_cons_cons]
      have hmem : rest.get ⟨j2, hj2⟩ ∈ rest := List.get_mem rest j2 hj2
      have hne : ¬((fun p : List Char × Nat => p.1 == rest.get ⟨j2, hj2⟩)
          (a, start) = true) := by
        simp only [beq_iff_eq]
        intro h
        exact absurd (show a ∈ rest from h ▸ hmem) (List.nodup_cons.mp hnd).1
      have hrec := ih (List.nodup_cons.mp hnd).2 (start + 1) j2 hj2
      simp only [lookupIdx] at hrec ⊢
      have hstep := @List.find?_cons_of_neg (List Char × Nat)
        (fun p => p.1 == rest.get ⟨j2, hj2⟩) (a, start)
        (rest.zip (List.range' (start + 1) rest.length)) hne
      rw [hstep, hrec]
      omega

/-- Setting element `pre.length` of `pre ++ b :: itl` replaces `b`. -/
theorem set_append_len {α : Type} (pre : List α) (b x : α) (itl : List α) :
    (pre ++ b :: itl).set pre.length x = pre ++ x :: itl := by
  induction pre with
  | nil => rfl
  | cons h t ih => simp [List.set_cons_succ, ih]

/-- A left fold of single-index writes at consecutive positions fills the
buffer with the mapped values. -/
theorem foldl_set_map {α β : Type} (f : β → α) (g : β → Nat) :
    ∀ (names : List β) (pre init : List α),
      init.length = names.length →
      (∀ j (hj : j < names.length), g (names.get ⟨j, hj⟩) = pre.length + j) →
      names.foldl (fun cols c => cols.set (g c) (f c)) (pre ++ init) =
        pre ++ names.map f := by
  intro names
  induction names with
  | nil =>
    intro pre init hlen _
    rw [List.length_eq_zero.mp hlen]
    simp
  | cons a rest ih =>
    intro pre init hlen hg
    cases init with
    | nil => simp at hlen
    | cons b itl =>
      simp only [List.foldl_cons]
      have hga : g a = pre.length := by simpa using hg 0 (by simp)
      have hset : (pre ++ b :: itl).set (g a) (f a) = (pre ++ [f a]) ++ itl := by
        rw [hga, set_append_len]
        simp
      rw [hset]
      have hlen2 : itl.length = rest.length := by
        simpa using hlen
      have hg2 : ∀ j (hj : j < rest.length),
          g (rest.get ⟨j, hj⟩) = (pre ++ [f a]).length + j := by
        intro j hj
        have := hg (j + 1) (by simpa [Nat.succ_lt_succ_iff] using hj)
        simp only [List.get_cons_succ] at this
        simp only [List.length_append, List.length_cons, List.length_nil]
        omega
      rw [ih (pre ++ [f a]) itl hlen2 hg2]
      simp

/-- Row materialization: with duplicate-free keys on the first record, the
row built for any record lists, per derived column, that record's value
when the key is present and the default nil value otherwise. -/
theorem buildRow_eq (r0 rec : List (List Char × GoValue))
    (hnd : (r0.map Prod.fst).Nodup) :
    buildRow (collectColumns r0).1 (collectColumns r0).2 rec =
      (r0.map Prod.fst).map (fun c => (lookupRecord rec c).getD GoValue.nil) := by
  rw [collectColumns_eq]
  have hg : ∀ j (hj : j < (r0.map Prod.fst).length),
      lookupIdx ((r0.map Prod.fst).zip
          (List.range' 0 (r0.map Prod.fst).length))
        ((r0.map Prod.fst).get ⟨j, hj⟩) = ([] : List GoValue).length + j := by
    intro j hj
    simpa using lookupIdx_zip (r0.map Prod.fst) hnd 0 j hj
  have := foldl_set_map (fun c => (lookupRecord rec c).getD GoValue.nil)
      (fun c => lookupIdx ((r0.map Prod.fst).zip
        (List.range' 0 (r0.map Prod.fst).length)) c)
      (r0.map Prod.fst) []
      (List.replicate (r0.map Prod.fst).length GoValue.nil)
      (by simp) hg
  simpa [buildRow] using this

/-- C2: for a matched, non-error response whose record list is non-empty
(first record's keys duplicate-free, as Go map keys are), QueryContext
returns a cursor whose column list is the first record's keys in insertion
order, and whose single result-set has, for every record i and every
derived column c, record i's value for c when c is a key of record i and
the default nil value otherwise. -/
theorem c2_roundtrip (catalog : List FakeResponse) (s : FakeStmt)
    (args : List GoValue) (resp : FakeResponse)
    (r0 : List (List Char × GoValue)) (rest : List (List (List Char × GoValue)))
    (hopen : s.closed = false)
    (hfq : FindResponse catalog (effectiveQuery s args) args = resp)
    (hhook : hookQueryFires resp = false)
    (herr : resp.err = none)
    (hresp : resp.response = r0 :: rest)
    (hnd : (r0.map Prod.fst).Nodup) :
    ((queryContext catalog s args).result.toOption.map RowsCursor.cols)
        = some (r0.map Prod.fst) ∧
    ((queryContext catalog s args).result.toOption.map RowsCursor.rows)
        = some [resp.response.map (fun rec =>
            (r0.map Prod.fst).map (fun c => (lookupRecord rec c).getD GoValue.nil))] := by
  constructor
  · simp only [queryContext, hopen, hfq, hhook, herr, hresp, Bool.false_eq_true,
      if_false, Except.toOption, Option.map_some']
    rw [collectColumns_eq]
  · simp only [queryContext, hopen, hfq, hhook, herr, hresp, Bool.false_eq_true,
      if_false, Except.toOption, Option.map_some']
    congr 1
    exact congrArg (fun x => [x])
      (List.map_congr_left fun rec _ => buildRow_eq r0 rec hnd)

/-- C2 witness: two records where the second lacks the id column; the
cursor lists columns id, name and fills the missing id with nil. -/
theorem c2_roundtrip_witness :
    ((queryContext [usersResp] (mkStmt "SELECT" "SELECT * FROM users" false)
        []).result.toOption.map RowsCursor.rows)
      = some [[[GoValue.int 1, GoValue.str "a".toList],
               [GoValue.nil, GoValue.str "b".toList]]] :=
  (c2_roundtrip [usersResp] (mkStmt "SELECT" "SELECT * FROM users" false) []
      usersResp usersRecord1 [usersRecord2]
      rfl rfl rfl rfl rfl (by decide)).2

/-- A character other than the verb opener passes through the Sprintf
model unchanged. -/
theorem sprintfGo_cons_ne (c : Char) (rest : List Char) (vs : List (List Char))
    (hc : c ≠ '%') : sprintfGo (c :: rest) vs = c :: sprintfGo rest vs := by
  conv_lhs => rw [sprintfGo.eq_def]
  split
  · rename_i heq; simp at heq
  · rename_i heq; simp at heq
  · rename_i heq; injection heq with h1 _; exact absurd h1 hc
  · rename_i heq; injection heq with h1 _; exact absurd h1 hc
  · rename_i heq g1 g2; injection heq with h1 h2; subst h1; subst h2; rfl

/-- The verb consumes the next argument. -/
theorem sprintfGo_pv (rest : List Char) (v : List Char) (vs : List (List Char)) :
    sprintfGo ('%' :: 'v' :: rest) (v :: vs) = v ++ sprintfGo rest vs := by rfl

/-- A format string without the verb opener and no arguments is returned
unchanged. -/
theorem sprintfGo_no_pct (a : List Char) (h : '%' ∉ a) : sprintfGo a [] = a := by
  induction a with
  | nil => rfl
  | cons c rest ih =>
    have hc : c ≠ '%' := fun hcc => h (by rw [hcc]; exact List.mem_cons_self _ _)
    rw [sprintfGo_cons_ne c rest [] hc, ih (fun hm => h (List.mem_cons_of_mem _ hm))]

/-- Sprintf of a text holding exactly one verb, surrounded by verb-free
text, splices the argument in. -/
theorem sprintfGo_insert (b a v : List Char) (hpb : '%' ∉ b) (hpa : '%' ∉ a) :
    sprintfGo (b ++ '%' :: 'v' :: a) [v] = b ++ v ++ a := by
  induction b with
  | nil =>
    rw [List.nil_append, sprintfGo_pv, sprintfGo_no_pct a hpa]
    rfl
  | cons c t ih =>
    have hc : c ≠ '%' := fun hcc => hpb (by rw [hcc]; exact List.mem_cons_self _ _)
    rw [List.cons_append, sprintfGo_cons_ne _ _ _ hc,
      ih (fun hm => hpb (List.mem_cons_of_mem _ hm))]
    rfl

/-- Replacement of the first placeholder in a text split at its first
placeholder. -/
theorem replaceFirst_split (b a r : List Char) (hb : '?' ∉ b) :
    replaceFirst (b ++ '?' :: a) '?' r = b ++ r ++ a := by
  induction b with
  | nil => simp [replaceFirst]
  | cons c t ih =>
    have hc : c ≠ '?' := fun h => hb (by rw [h]; exact List.mem_cons_self _ _)
    have ht : '?' ∉ t := fun h => hb (List.mem_cons_of_mem _ h)
    simp [replaceFirst, hc, ih ht]

/-- One substitution step on a text split at its first placeholder splices
in the formatted value. -/
theorem substStep_split (b a : List Char) (v : GoValue)
    (hb : '?' ∉ b) (hpb : '%' ∉ b) (hpa : '%' ∉ a) :
    substStep (b ++ '?' :: a) v = b ++ formatValue v ++ a := by
  unfold substStep
  rw [replaceFirst_split b a _ hb]
  have hre : b ++ ('%' :: 'v' :: []) ++ a = b ++ '%' :: 'v' :: a := by simp
  rw [hre, sprintfGo_insert b a (formatValue v) hpb hpa]

/-- A text containing a placeholder splits at its first placeholder. -/
theorem exists_qmark_split (q : List Char) (h : '?' ∈ q) :
    ∃ b a, q = b ++ '?' :: a ∧ '?' ∉ b := by
  induction q with
  | nil => cases h
  | cons c rest ih =>
    by_cases hc : c = '?'
    · exact ⟨[], rest, by simp [hc], by simp⟩
    · have h2 : '?' ∈ rest := by
        rcases List.mem_cons.mp h with h1 | h1
        · exact absurd h1.symm hc
        · exact h1
      obtain ⟨b, a, hsplit, hbn⟩ := ih h2
      refine ⟨c :: b, a, by rw [List.cons_append, hsplit], ?_⟩
      intro hm
      rcases List.mem_cons.mp hm with h1 | h1
      · exact hc h1.symm
      · exact hbn h1

/-- Direct replacement with no values left returns the text. -/
theorem replaceQMarks_nil_vs (q : List Char) : replaceQMarks q [] = q := by
  cases q <;> rfl

/-- Direct replacement consumes a leading placeholder. -/
theorem replaceQMarks_cons_q (q v : List Char) (vs : List (List Char)) :
    replaceQMarks ('?' :: q) (v :: vs) = v ++ replaceQMarks q vs := by
  simp [replaceQMarks]

/-- Direct replacement passes a non-placeholder character through. -/
theorem replaceQMarks_cons_ne (c : Char) (q v : List Char) (vs : List (List Char))
    (hc : c ≠ '?') :
    replaceQMarks (c :: q) (v :: vs) = c :: replaceQMarks q (v :: vs) := by
  simp [replaceQMarks, hc]

/-- Direct replacement skips over a placeholder-free prefix. -/
theorem replaceQMarks_append_no_q (b q : List Char) (vs : List (List Char))
    (hb : '?' ∉ b) :
    replaceQMarks (b ++ q) vs = b ++ replaceQMarks q vs := by
  induction b with
  | nil => simp
  | cons c t ih =>
    have hc : c ≠ '?' := fun h => hb (by rw [h]; exact List.mem_cons_self _ _)
    have ht : '?' ∉ t := fun h => hb (List.mem_cons_of_mem _ h)
    cases vs with
    | nil => simp [replaceQMarks_nil_vs]
    | cons v vs2 =>
      rw [List.cons_append, replaceQMarks_cons_ne c (t ++ q) v vs2 hc, ih ht]
      rfl

/-- The progressive substitution loop coincides with direct in-order
placeholder replacement on texts without format-verb characters, for
argument values whose formatted texts introduce neither placeholders nor
verb characters, when enough placeholders are present. -/
theorem substArgs_eq_replaceQMarks (args : List GoValue) :
    ∀ q : List Char, '%' ∉ q →
      (∀ v ∈ args, '%' ∉ formatValue v ∧ '?' ∉ formatValue v) →
      args.length ≤ List.count '?' q →
      substArgs q args = replaceQMarks q (args.map formatValue) := by
  induction args with
  | nil =>
    intro q _ _ _
    exact (replaceQMarks_nil_vs q).symm
  | cons v vs ih =>
    intro q hq hvals hcount
    have hqmem : '?' ∈ q := by
      refine List.count_pos_iff.mp ?_
      calc 0 < (v :: vs).length := by simp
        _ ≤ List.count '?' q := hcount
    obtain ⟨b, a, rfl, hb⟩ := exists_qmark_split q hqmem
    have hfv := hvals v (List.mem_cons_self v vs)
    have hpb : '%' ∉ b := fun hm => hq (List.mem_append.mpr (Or.inl hm))
    have hpa : '%' ∉ a := fun hm =>
      hq (List.mem_append.mpr (Or.inr (List.mem_cons_of_mem _ hm)))
    have hcb : List.count '?' b = 0 := List.count_eq_zero.mpr hb
    have hcv : List.count '?' (formatValue v) = 0 := List.count_eq_zero.mpr hfv.2
    have hq2 : '%' ∉ b ++ formatValue v ++ a := by
      intro hm
      rcases List.mem_append.mp hm with h1 | h1
      · rcases List.mem_append.mp h1 with h2 | h2
        · exact hpb h2
        · exact hfv.1 h2
      · exact hpa h1
    have hbfv : '?' ∉ b ++ formatValue v := by
      intro hm
      rcases List.mem_append.mp hm with h1 | h1
      · exact hb h1
      · exact hfv.2 h1
    have hcount2 : vs.length ≤ List.count '?' (b ++ formatValue v ++ a) := by
      have he1 : List.count '?' (b ++ '?' :: a) = List.count '?' a + 1 := by
        simp [List.count_append, List.count_cons, hcb]
      have he2 : List.count '?' (b ++ formatValue v ++ a) = List.count '?' a := by
        simp [List.count_append, hcb, hcv]
      rw [he1] at hcount
      rw [he2]
      simpa using Nat.lt_succ_iff.mp (Nat.lt_of_lt_of_le (Nat.lt_succ_self _)
        (by simpa using hcount))
    calc substArgs (b ++ '?' :: a) (v :: vs)
        = substArgs (substStep (b ++ '?' :: a) v) vs := rfl
      _ = substArgs (b ++ formatValue v ++ a) vs := by
          rw [substStep_split b a v hb hpb hpa]
      _ = replaceQMarks (b ++ formatValue v ++ a) (vs.map formatValue) :=
          ih _ hq2 (fun x hx => hvals x (List.mem_cons_of_mem _ hx)) hcount2
      _ = replaceQMarks (b ++ '?' :: a) ((v :: vs).map formatValue) := by
          rw [List.map_cons, replaceQMarks_append_no_q b ('?' :: a) _ hb,
            replaceQMarks_cons_q, replaceQMarks_append_no_q (b ++ formatValue v) a _ hbfv]
          simp [List.append_assoc]

/-- For an open statement, QueryContext stores the substituted text and
looks the catalog up with it, on every control path. -/
theorem queryContext_state (catalog : List FakeResponse) (s : FakeStmt)
    (args : List GoValue) (hopen : s.closed = false) :
    (queryContext catalog s args).stmt = { s with q := effectiveQuery s args } ∧
    (queryContext catalog s args).lookups = [(effectiveQuery s args, args)] := by
  by_cases hh : hookQueryFires (FindResponse catalog (effectiveQuery s args) args) = true
  · constructor <;> simp [queryContext, hopen, hh]
  · simp only [Bool.not_eq_true] at hh
    cases herr : (FindResponse catalog (effectiveQuery s args) args).err with
    | some e => constructor <;> simp [queryContext, hopen, hh, herr]
    | none =>
      constructor <;>
      · simp only [queryContext, hopen, hh, herr, Bool.false_eq_true, if_false]

/-- For an open statement, ExecContext leaves the statement untouched and
looks the catalog up with the stored text, on every control path. -/
theorem execContext_state (catalog : List FakeResponse) (rng : Int)
    (s : FakeStmt) (args : List GoValue) (hopen : s.closed = false) :
    (execContext catalog rng s args).stmt = s ∧
    (execContext catalog rng s args).lookups = [(s.q, args)] := by
  by_cases hh : hookExecFires (FindResponse catalog s.q args) = true
  · constructor <;> simp [execContext, hopen, hh]
  · simp only [Bool.not_eq_true] at hh
    cases herr : (FindResponse catalog s.q args).err with
    | some e => constructor <;> simp [execContext, hopen, hh, herr]
    | none =>
      constructor <;>
      · simp only [execContext, hopen, hh, herr, Bool.false_eq_true, if_false]
        all_goals (split_ifs <;> rfl)

/-- C8, counterexample: the claim says each placeholder is replaced, in
order, by the corresponding argument's text; but the loop rewrites
progressively, so an argument value that itself contains a placeholder is
re-substituted by the next argument — the stored text becomes "axb?"
rather than the claimed "a?bx". -/
theorem c8_counterexample :
    (queryContext [] (mkStmt "SELECT" "a?b?" false)
        [GoValue.str "?".toList, GoValue.str "x".toList]).stmt.q = "axb?".toList ∧
    replaceQMarks "a?b?".toList ["?".toList, "x".toList] = "a?bx".toList ∧
    "axb?".toList ≠ "a?bx".toList :=
  ⟨rfl, rfl, by decide⟩

/-- C8 (amended): on the query path only, for a non-empty argument list,
when the stored SQL text contains no format-verb character, the formatted
argument texts contain neither placeholders nor format-verb characters,
and the text has at least as many placeholders as there are arguments,
each positional placeholder is replaced, in order, by the corresponding
formatted argument value, rewriting the statement's stored text before
matching; ExecContext performs no substitution. -/
theorem c8_query_substitution (catalog : List FakeResponse) (rng : Int)
    (s : FakeStmt) (args : List GoValue)
    (hopen : s.closed = false)
    (hargs : args ≠ [])
    (hq : '%' ∉ s.q)
    (hvals : ∀ v ∈ args, '%' ∉ formatValue v ∧ '?' ∉ formatValue v)
    (hcount : args.length ≤ List.count '?' s.q) :
    (queryContext catalog s args).stmt.q
        = replaceQMarks s.q (args.map formatValue) ∧
    (queryContext catalog s args).lookups
        = [(replaceQMarks s.q (args.map formatValue), args)] ∧
    (execContext catalog rng s args).stmt = s ∧
    (execContext catalog rng s args).lookups = [(s.q, args)] := by
  have hlen : 0 < args.length := List.length_pos.mpr hargs
  have heff : effectiveQuery s args = replaceQMarks s.q (args.map formatValue) := by
    rw [effectiveQuery, if_pos hlen]
    exact substArgs_eq_replaceQMarks args s.q hq hvals hcount
  obtain ⟨hstmt, hlks⟩ := queryContext_state catalog s args hopen
  obtain ⟨hestmt, helks⟩ := execContext_state catalog rng s args hopen
  refine ⟨?_, ?_, hestmt, helks⟩
  · rw [hstmt]
    exact heff
  · rw [hlks, heff]

/-- C8 witness: two placeholders substituted by an integer and a plain
string, the stored text and the lookup both carrying the substituted
text. -/
theorem c8_query_substitution_witness :
    (queryContext [] (mkStmt "SELECT" "SELECT ?, ?" false)
        [GoValue.int 5, GoValue.str "ab".toList]).stmt.q = "SELECT 5, ab".toList :=
  (c8_query_substitution [] 0 (mkStmt "SELECT" "SELECT ?, ?" false)
      [GoValue.int 5, GoValue.str "ab".toList]
      rfl (by decide) (by decide) (by decide) (by decide)).1

end GoMocket
